import Mathlib

/-!
Shallow embedding of the vala-q-voice-gateway relay (Twilio Media Streams
to OpenAI Realtime, bidirectional audio). The definitions translate the
per-call session logic of the final source iteration
(src/unnamed/part_000): the per-session mutable flags, the twilioWS and oa
message handlers, the cleanup procedure, the HTTP upgrade path check, and a
serialized per-session event semantics (`run`) matching the one-event-at-a-
time processing model. The variant cleanup from the last iteration in
src/unnamed/part_001 (lines 454 to 460, a single try/catch around all three
releases) is embedded separately as `cleanupSingleTry`.
-/

namespace ValaQ

/-- Upstream (OpenAI Realtime) control messages the gateway sends. -/
inductive OAMsg where
  | sessionUpdate
  | responseCreate (instructions : String)
  | append (audio : String)
  | commit
  | cancel
deriving DecidableEq, Repr

/-- End-of-call outcome report POSTed to the notifier endpoint
(part_000 lines 181 to 185). -/
structure Outcome where
  leadId : String
  callSid : Option String
  status : String
  startedAt : Nat
  endedAt : Nat
  summary : String
  transcript : String
deriving DecidableEq, Repr

/-- Observable side effects an event handler performs. -/
inductive Action where
  | oaSend (m : OAMsg)
  | twilioSend (payload : String)
  | postOutcome (o : Outcome)
  | closeOA
  | closeTwilio
deriving DecidableEq, Repr

/-- Decoded inbound Twilio events (the switch in part_000 lines 141 to 202).
`malformed` stands for a message on which JSON decoding throws, so the
catch block runs before any state mutation. -/
inductive TwEvent where
  | start (sid : Option String)
  | media (payload : String)
  | stop
  | other
  | malformed
deriving DecidableEq, Repr

/-- Decoded inbound OpenAI events (part_000 lines 100 to 124). -/
inductive OAEvent where
  | audioDelta (audio : String)
  | completed
  | transcriptDelta (d : String)
  | outputTextDelta (d : String)
  | error
  | other
  | malformed
deriving DecidableEq, Repr

/-- One serialized per-session event: a message on either connection, or a
transport lifecycle event on either connection. -/
inductive Event where
  | tw (e : TwEvent)
  | oaMsg (e : OAEvent)
  | oaOpen
  | oaClose
  | oaError
  | twClose
  | twError
deriving DecidableEq, Repr

/-- Per-session state: the mutable locals of the connection handler in
part_000 lines 42 to 49, plus the transport readiness of the two sockets
(readyState equal to OPEN), which the code reads via readyState guards. -/
structure SessionState where
  openaiReady : Bool
  speaking : Bool
  twilioClosed : Bool
  callSid : Option String
  callStartTs : Nat
  transcript : String
  summary : String
  framesSinceCommit : Int
  oaConnOpen : Bool
  twilioConnOpen : Bool
deriving DecidableEq, Repr

/-- Per-session configuration captured at accept time. -/
structure Config where
  leadId : String
  n8nConfigured : Bool
deriving DecidableEq, Repr

/-- Initial session state at connection accept (part_000 lines 42 to 49):
all flags false, callSid null, counters zero; the Twilio socket is open and
the OpenAI socket is still connecting (not OPEN yet). -/
def initState (ts0 : Nat) : SessionState :=
  { openaiReady := false, speaking := false, twilioClosed := false,
    callSid := none, callStartTs := ts0, transcript := "", summary := "",
    framesSinceCommit := 0, oaConnOpen := false, twilioConnOpen := true }

/-- JS `x || null` applied to an optional string field: an absent field and
the empty string (falsy) both map to null (part_000 line 143). -/
def jsOrNull : Option String → Option String
  | some s => if s = "" then none else some s
  | none => none

/-- Helper `twilioSendMedia` (part_000 lines 52 to 59): returns early when the
`twilioClosed` flag is set, otherwise attempts the send; a throwing send is
caught inside, so no exception escapes. -/
def twilioSendMedia (s : SessionState) (base64Audio : String) : List Action :=
  if s.twilioClosed then [] else [Action.twilioSend base64Audio]

/-- The effect of `cleanup` (part_000 lines 61 to 64) inside the running
session: close each socket whose readyState is OPEN, each close in its own
try/catch. -/
def cleanupStep (s : SessionState) : SessionState × List Action :=
  ({ s with oaConnOpen := false, twilioConnOpen := false },
   (if s.oaConnOpen then [Action.closeOA] else [])
     ++ (if s.twilioConnOpen then [Action.closeTwilio] else []))

def greetingInstructions : String :=
  "Hi! This is Vala Q Designs. Is now a bad time to talk about your website?"

def summaryInstructions : String :=
  "Give a 2-sentence summary of the call outcome."

/-- The twilioWS message handler switch (part_000 lines 141 to 202).
For `media` while `openaiReady` (lines 148 to 167): send append, increment
`framesSinceCommit`, send commit and reset the counter when it reaches 5,
then send cancel and clear `speaking` when the agent was speaking. For
`stop` (lines 169 to 198): request a summary turn, POST the outcome when
the notifier URL is configured, and close the Twilio socket. -/
def stepTw (cfg : Config) (now : Nat) (s : SessionState) :
    TwEvent → SessionState × List Action
  | TwEvent.start sid => ({ s with callSid := jsOrNull sid }, [])
  | TwEvent.media p =>
      if s.openaiReady then
        ({ s with
             framesSinceCommit :=
               if s.framesSinceCommit + 1 ≥ 5 then 0 else s.framesSinceCommit + 1,
             speaking := if s.speaking then false else s.speaking },
         Action.oaSend (OAMsg.append p)
           :: ((if s.framesSinceCommit + 1 ≥ 5 then [Action.oaSend OAMsg.commit] else [])
               ++ (if s.speaking then [Action.oaSend OAMsg.cancel] else [])))
      else (s, [])
  | TwEvent.stop =>
      ({ s with twilioConnOpen := false },
       Action.oaSend (OAMsg.responseCreate summaryInstructions)
         :: ((if cfg.n8nConfigured then
                [Action.postOutcome
                  { leadId := cfg.leadId, callSid := s.callSid,
                    status := "completed", startedAt := s.callStartTs,
                    endedAt := now, summary := s.summary,
                    transcript := s.transcript }]
              else [])
             ++ [Action.closeTwilio]))
  | TwEvent.other => (s, [])
  | TwEvent.malformed => (s, [])

/-- The oa message handler (part_000 lines 100 to 124). An audio delta with
a truthy payload sets `speaking` and forwards the payload through
`twilioSendMedia`; `response.completed` clears `speaking`; the delta events
append to the accumulators; error and unknown kinds only log. -/
def stepOa (s : SessionState) : OAEvent → SessionState × List Action
  | OAEvent.audioDelta a =>
      if a = "" then (s, [])
      else ({ s with speaking := true },
            twilioSendMedia { s with speaking := true } a)
  | OAEvent.completed => ({ s with speaking := false }, [])
  | OAEvent.transcriptDelta d =>
      (if d = "" then s else { s with transcript := s.transcript ++ d }, [])
  | OAEvent.outputTextDelta d =>
      (if d = "" then s else { s with summary := s.summary ++ d }, [])
  | OAEvent.error => (s, [])
  | OAEvent.other => (s, [])
  | OAEvent.malformed => (s, [])

/-- One serialized handler invocation. The oa open handler (part_000 lines
67 to 98) marks the session ready and sends the configuration and greeting;
close and error handlers on either socket run `cleanup` (lines 126 to 134
and 208 to 216); a Twilio close means that socket is no longer OPEN when
the handler runs. Note that no handler in part_000 ever sets the
`twilioClosed` flag. -/
def step (cfg : Config) (now : Nat) (s : SessionState) :
    Event → SessionState × List Action
  | Event.tw e => stepTw cfg now s e
  | Event.oaMsg e => stepOa s e
  | Event.oaOpen =>
      ({ s with openaiReady := true, oaConnOpen := true },
       [Action.oaSend OAMsg.sessionUpdate,
        Action.oaSend (OAMsg.responseCreate greetingInstructions)])
  | Event.oaClose => cleanupStep { s with oaConnOpen := false }
  | Event.oaError => cleanupStep s
  | Event.twClose => cleanupStep { s with twilioConnOpen := false }
  | Event.twError => cleanupStep s

/-- Transport model for event delivery: messages arrive on a socket only
while it is open (and, for the OpenAI socket, only after its open event,
which fires at most once). Lifecycle events are always deliverable. -/
def delivers (s : SessionState) : Event → Bool
  | Event.tw _ => s.twilioConnOpen
  | Event.oaMsg _ => s.openaiReady && s.oaConnOpen
  | Event.oaOpen => !s.openaiReady
  | Event.oaClose => true
  | Event.oaError => true
  | Event.twClose => true
  | Event.twError => true

/-- Serialized per-session execution over a timestamped event trace: each
delivered event is handled to completion (state mutation plus the outbound
sends it triggers) before the next one starts, per the serialization model. -/
def run (cfg : Config) : SessionState → List (Nat × Event) → SessionState × List Action
  | s, [] => (s, [])
  | s, (t, e) :: rest =>
      if delivers s e then
        let p := step cfg t s e
        let q := run cfg p.1 rest
        (q.1, p.2 ++ q.2)
      else run cfg s rest

/-- Session state after a trace, starting from a fresh session. -/
def stateAfter (cfg : Config) (ts0 : Nat) (tr : List (Nat × Event)) : SessionState :=
  (run cfg (initState ts0) tr).1

/-- A trace consisting only of inbound Twilio media frames. -/
def mediaTrace (ps : List String) : List (Nat × Event) :=
  ps.map fun p => (0, Event.tw (TwEvent.media p))

def countCancels : List Action → Nat
  | [] => 0
  | Action.oaSend OAMsg.cancel :: rest => countCancels rest + 1
  | _ :: rest => countCancels rest

def countCommits : List Action → Nat
  | [] => 0
  | Action.oaSend OAMsg.commit :: rest => countCommits rest + 1
  | _ :: rest => countCommits rest

def appendsOf : List Action → List String
  | [] => []
  | Action.oaSend (OAMsg.append a) :: rest => a :: appendsOf rest
  | _ :: rest => appendsOf rest

def outcomesOf : List Action → List Outcome
  | [] => []
  | Action.postOutcome o :: rest => o :: outcomesOf rest
  | _ :: rest => outcomesOf rest

/-- Resources held by one session as seen by the teardown procedure, plus
the fault environment: whether closing each socket would throw. -/
structure Conns where
  timerActive : Bool
  oaIsOpen : Bool
  twIsOpen : Bool
  oaCloseThrows : Bool
  twCloseThrows : Bool
deriving DecidableEq, Fintype, Repr

/-- Observable outcome of one teardown invocation. -/
structure CleanupOut where
  timerCleared : Bool
  oaCloseAttempted : Bool
  twCloseAttempted : Bool
  escaped : Bool
deriving DecidableEq, Repr

/-- Teardown `cleanup` of the final iteration (part_000 lines 61 to 64): each close
guarded by readyState OPEN and wrapped in its own try/catch, so a throwing
close neither escapes nor stops the other release; a socket whose close
threw is treated as still open. That iteration holds no timer. -/
def cleanup (c : Conns) : Conns × CleanupOut :=
  ({ c with
       oaIsOpen := if c.oaIsOpen && !c.oaCloseThrows then false else c.oaIsOpen,
       twIsOpen := if c.twIsOpen && !c.twCloseThrows then false else c.twIsOpen },
   { timerCleared := false, oaCloseAttempted := c.oaIsOpen,
     twCloseAttempted := c.twIsOpen, escaped := false })

/-- Teardown `cleanup` of the last iteration in part_001 (lines 454 to 460): one
try/catch around clearing the timer and both closes, so a throw during an
earlier release skips the later ones; the catch still swallows it. -/
def cleanupSingleTry (c : Conns) : Conns × CleanupOut :=
  let c1 := { c with timerActive := false }
  if c.oaIsOpen then
    if c.oaCloseThrows then
      (c1, { timerCleared := true, oaCloseAttempted := true,
             twCloseAttempted := false, escaped := false })
    else
      let c2 := { c1 with oaIsOpen := false }
      if c.twIsOpen then
        ({ c2 with twIsOpen := c.twCloseThrows },
         { timerCleared := true, oaCloseAttempted := true,
           twCloseAttempted := true, escaped := false })
      else
        (c2, { timerCleared := true, oaCloseAttempted := true,
               twCloseAttempted := false, escaped := false })
  else
    if c.twIsOpen then
      ({ c1 with twIsOpen := c.twCloseThrows },
       { timerCleared := true, oaCloseAttempted := false,
         twCloseAttempted := true, escaped := false })
    else
      (c1, { timerCleared := true, oaCloseAttempted := false,
             twCloseAttempted := false, escaped := false })

/-- Result of the HTTP upgrade handler (part_000 lines 221 to 232). -/
inductive UpgradeResult where
  | handleUpgrade
  | destroySocket
deriving DecidableEq, Repr

/-- Character-list prefix test, the meaning of the JS string method
startsWith on these ASCII request targets. -/
def isPrefixList : List Char → List Char → Bool
  | [], _ => true
  | _ :: _, [] => false
  | c :: cs, d :: ds => if c = d then isPrefixList cs ds else false

/-- JS url.startsWith(pre) over the character sequences of the strings. -/
def strStartsWith (s pre : String) : Bool := isPrefixList pre.data s.data

/-- The server upgrade handler: hand the socket to the WS server when the
request URL starts with "/stream", otherwise destroy the socket. -/
def upgradeHandler (url : String) : UpgradeResult :=
  if strStartsWith url "/stream" then UpgradeResult.handleUpgrade
  else UpgradeResult.destroySocket

/-- Call Sessions instantiated per upgrade request: the accepted branch
emits exactly one connection event, whose handler builds one session. -/
def sessionsCreated (url : String) : Nat :=
  match upgradeHandler url with
  | UpgradeResult.handleUpgrade => 1
  | UpgradeResult.destroySocket => 0

/-- Concrete configuration used by the closed witness statements. -/
def cfgW : Config := { leadId := "lead-42", n8nConfigured := true }

/-- Concrete trace reaching a state in which the agent is speaking: the
OpenAI session opens, then one audio delta flows. -/
def trW : List (Nat × Event) :=
  [(0, Event.oaOpen), (1, Event.oaMsg (OAEvent.audioDelta "YQ=="))]

lemma run_nil (cfg : Config) (s : SessionState) : run cfg s [] = (s, []) := rfl

lemma run_cons (cfg : Config) (s : SessionState) (t : Nat) (e : Event)
    (tr : List (Nat × Event)) :
    run cfg s ((t, e) :: tr) =
      if delivers s e then
        ((run cfg (step cfg t s e).1 tr).1,
         (step cfg t s e).2 ++ (run cfg (step cfg t s e).1 tr).2)
      else run cfg s tr := rfl

lemma run_append (cfg : Config) (l1 l2 : List (Nat × Event)) :
    ∀ s : SessionState,
      run cfg s (l1 ++ l2) =
        ((run cfg (run cfg s l1).1 l2).1,
         (run cfg s l1).2 ++ (run cfg (run cfg s l1).1 l2).2) := by
  induction l1 with
  | nil => intro s; simp [run]
  | cons te rest ih =>
      intro s
      obtain ⟨t, e⟩ := te
      by_cases h : delivers s e
      · simp [run_cons, h, ih, List.append_assoc]
      · simp [run_cons, h, ih]

lemma countCancels_append (l1 l2 : List Action) :
    countCancels (l1 ++ l2) = countCancels l1 + countCancels l2 := by
  induction l1 with
  | nil => simp [countCancels]
  | cons a t ih =>
      cases a with
      | oaSend m => cases m <;> simp [countCancels, ih, Nat.add_right_comm]
      | twilioSend p => simp [countCancels, ih]
      | postOutcome o => simp [countCancels, ih]
      | closeOA => simp [countCancels, ih]
      | closeTwilio => simp [countCancels, ih]

lemma countCommits_append (l1 l2 : List Action) :
    countCommits (l1 ++ l2) = countCommits l1 + countCommits l2 := by
  induction l1 with
  | nil => simp [countCommits]
  | cons a t ih =>
      cases a with
      | oaSend m => cases m <;> simp [countCommits, ih, Nat.add_right_comm]
      | twilioSend p => simp [countCommits, ih]
      | postOutcome o => simp [countCommits, ih]
      | closeOA => simp [countCommits, ih]
      | closeTwilio => simp [countCommits, ih]

lemma appendsOf_append (l1 l2 : List Action) :
    appendsOf (l1 ++ l2) = appendsOf l1 ++ appendsOf l2 := by
  induction l1 with
  | nil => simp [appendsOf]
  | cons a t ih =>
      cases a with
      | oaSend m => cases m <;> simp [appendsOf, ih]
      | twilioSend p => simp [appendsOf, ih]
      | postOutcome o => simp [appendsOf, ih]
      | closeOA => simp [appendsOf, ih]
      | closeTwilio => simp [appendsOf, ih]

lemma outcomesOf_append (l1 l2 : List Action) :
    outcomesOf (l1 ++ l2) = outcomesOf l1 ++ outcomesOf l2 := by
  induction l1 with
  | nil => simp [outcomesOf]
  | cons a t ih =>
      cases a with
      | oaSend m => cases m <;> simp [outcomesOf, ih]
      | twilioSend p => simp [outcomesOf, ih]
      | postOutcome o => simp [outcomesOf, ih]
      | closeOA => simp [outcomesOf, ih]
      | closeTwilio => simp [outcomesOf, ih]

lemma step_media (cfg : Config) (now : Nat) (s : SessionState) (p : String) :
    step cfg now s (Event.tw (TwEvent.media p)) =
      if s.openaiReady then
        ({ s with
             framesSinceCommit :=
               if s.framesSinceCommit + 1 ≥ 5 then 0 else s.framesSinceCommit + 1,
             speaking := if s.speaking then false else s.speaking },
         Action.oaSend (OAMsg.append p)
           :: ((if s.framesSinceCommit + 1 ≥ 5 then [Action.oaSend OAMsg.commit] else [])
               ++ (if s.speaking then [Action.oaSend OAMsg.cancel] else [])))
      else (s, []) := rfl

/-- Running a pure media trace never changes the identification fields, the
accumulators, the readiness flags, or the socket states, and it emits no
outcome report (media processing only appends, commits, and cancels). -/
lemma media_run_fields (cfg : Config) :
    ∀ (ps : List String) (s : SessionState),
      (run cfg s (mediaTrace ps)).1.callSid = s.callSid ∧
      (run cfg s (mediaTrace ps)).1.twilioConnOpen = s.twilioConnOpen ∧
      (run cfg s (mediaTrace ps)).1.callStartTs = s.callStartTs ∧
      (run cfg s (mediaTrace ps)).1.summary = s.summary ∧
      (run cfg s (mediaTrace ps)).1.transcript = s.transcript ∧
      (run cfg s (mediaTrace ps)).1.openaiReady = s.openaiReady ∧
      (run cfg s (mediaTrace ps)).1.twilioClosed = s.twilioClosed ∧
      (run cfg s (mediaTrace ps)).1.oaConnOpen = s.oaConnOpen ∧
      outcomesOf (run cfg s (mediaTrace ps)).2 = [] := by
  intro ps
  induction ps with
  | nil => intro s; simp [mediaTrace, run, outcomesOf]
  | cons p rest ih =>
      intro s
      by_cases hop : s.twilioConnOpen = true
      · by_cases hr : s.openaiReady = true
        · have h2 := ih { s with
             framesSinceCommit :=
               if s.framesSinceCommit + 1 ≥ 5 then 0 else s.framesSinceCommit + 1,
             speaking := if s.speaking then false else s.speaking }
          by_cases hc : 5 ≤ s.framesSinceCommit + 1 <;>
            by_cases hsp : s.speaking = true <;>
              simp_all [mediaTrace, run_cons, delivers, step_media,
                        outcomesOf_append, outcomesOf, ge_iff_le] <;>
              (rw [if_neg (by omega)]; simp [outcomesOf])
        · have h2 := ih s
          simp_all [mediaTrace, run_cons, delivers, step_media, outcomesOf]
      · have h2 := ih s
        simp_all [mediaTrace, run_cons, delivers]

lemma stepOa_fields (s : SessionState) (oe : OAEvent) :
    (stepOa s oe).1.openaiReady = s.openaiReady ∧
    (stepOa s oe).1.twilioConnOpen = s.twilioConnOpen ∧
    (stepOa s oe).1.oaConnOpen = s.oaConnOpen ∧
    (stepOa s oe).1.callSid = s.callSid ∧
    (stepOa s oe).1.callStartTs = s.callStartTs ∧
    (stepOa s oe).1.framesSinceCommit = s.framesSinceCommit ∧
    (stepOa s oe).1.twilioClosed = s.twilioClosed ∧
    outcomesOf (stepOa s oe).2 = [] ∧
    countCancels (stepOa s oe).2 = 0 ∧
    countCommits (stepOa s oe).2 = 0 := by
  cases oe <;>
    simp [stepOa, twilioSendMedia, outcomesOf, countCancels, countCommits] <;>
    (repeat' split) <;>
    simp [outcomesOf, countCancels, countCommits]

lemma cleanupStep_fields (s : SessionState) :
    (cleanupStep s).1.openaiReady = s.openaiReady ∧
    (cleanupStep s).1.speaking = s.speaking ∧
    (cleanupStep s).1.callSid = s.callSid ∧
    (cleanupStep s).1.callStartTs = s.callStartTs ∧
    (cleanupStep s).1.framesSinceCommit = s.framesSinceCommit ∧
    (cleanupStep s).1.twilioClosed = s.twilioClosed ∧
    (cleanupStep s).1.oaConnOpen = false ∧
    (cleanupStep s).1.twilioConnOpen = false ∧
    outcomesOf (cleanupStep s).2 = [] ∧
    countCancels (cleanupStep s).2 = 0 ∧
    countCommits (cleanupStep s).2 = 0 := by
  simp [cleanupStep, outcomesOf_append, countCancels_append, countCommits_append] <;>
    (repeat' split) <;>
    simp [outcomesOf, countCancels, countCommits]

/-- One delivered handler invocation preserves the session invariant that
the agent can only be speaking after the upstream session became ready:
`speaking` is set only by an audio delta, which is delivered only once
`openaiReady` holds, and `openaiReady` is never cleared. -/
lemma step_inv_speak (cfg : Config) (t : Nat) (s : SessionState) (e : Event)
    (hd : delivers s e = true)
    (h : s.speaking = true → s.openaiReady = true) :
    (step cfg t s e).1.speaking = true → (step cfg t s e).1.openaiReady = true := by
  cases e with
  | tw te =>
      cases te with
      | start sid => simpa [step, stepTw] using h
      | media p =>
          by_cases hr : s.openaiReady = true
          · simp [step_media, hr]
          · simp only [step_media, hr, if_false, Bool.false_eq_true]
            intro hs
            exact absurd (h hs) hr
      | stop => simpa [step, stepTw] using h
      | other => simpa [step, stepTw] using h
      | malformed => simpa [step, stepTw] using h
  | oaMsg oe =>
      have hr : s.openaiReady = true := by
        simp [delivers] at hd; exact hd.1
      intro _
      have hready := (stepOa_fields s oe).1
      simpa [step, hready] using hr
  | oaOpen => simp [step]
  | oaClose =>
      intro hs
      have h1 := cleanupStep_fields { s with oaConnOpen := false }
      simp [step] at hs ⊢
      rw [h1.1]
      rw [h1.2.1] at hs
      exact h hs
  | oaError =>
      intro hs
      have h1 := cleanupStep_fields s
      simp [step] at hs ⊢
      rw [h1.1]
      rw [h1.2.1] at hs
      exact h hs
  | twClose =>
      intro hs
      have h1 := cleanupStep_fields { s with twilioConnOpen := false }
      simp [step] at hs ⊢
      rw [h1.1]
      rw [h1.2.1] at hs
      exact h hs
  | twError =>
      intro hs
      have h1 := cleanupStep_fields s
      simp [step] at hs ⊢
      rw [h1.1]
      rw [h1.2.1] at hs
      exact h hs

lemma run_inv_speak (cfg : Config) :
    ∀ (tr : List (Nat × Event)) (s : SessionState),
      (s.speaking = true → s.openaiReady = true) →
      ((run cfg s tr).1.speaking = true → (run cfg s tr).1.openaiReady = true) := by
  intro tr
  induction tr with
  | nil => intro s h; simpa [run] using h
  | cons te rest ih =>
      intro s h
      obtain ⟨t, e⟩ := te
      by_cases hd : delivers s e = true
      · simpa [run_cons, hd] using ih (step cfg t s e).1 (step_inv_speak cfg t s e hd h)
      · simpa [run_cons, hd] using ih s h

/-- In every reachable session state, a speaking agent implies the upstream
session is ready. -/
lemma speaking_imp_ready (cfg : Config) (ts0 : Nat) (tr : List (Nat × Event))
    (h : (stateAfter cfg ts0 tr).speaking = true) :
    (stateAfter cfg ts0 tr).openaiReady = true := by
  exact run_inv_speak cfg tr (initState ts0) (by simp [initState]) h

lemma step_inv_frames (cfg : Config) (t : Nat) (s : SessionState) (e : Event)
    (h0 : 0 ≤ s.framesSinceCommit) (h5 : s.framesSinceCommit < 5) :
    0 ≤ (step cfg t s e).1.framesSinceCommit ∧
    (step cfg t s e).1.framesSinceCommit < 5 := by
  cases e with
  | tw te =>
      cases te with
      | start sid => simpa [step, stepTw] using And.intro h0 h5
      | media p =>
          by_cases hr : s.openaiReady = true
          · by_cases hc : 5 ≤ s.framesSinceCommit + 1 <;>
              simp [step_media, hr, hc] <;> omega
          · simp only [step_media, hr, if_false, Bool.false_eq_true]
            exact And.intro h0 h5
      | stop => simpa [step, stepTw] using And.intro h0 h5
      | other => simpa [step, stepTw] using And.intro h0 h5
      | malformed => simpa [step, stepTw] using And.intro h0 h5
  | oaMsg oe =>
      have h1 := (stepOa_fields s oe).2.2.2.2.2.1
      simp only [step]
      rw [h1]; exact And.intro h0 h5
  | oaOpen => simpa [step] using And.intro h0 h5
  | oaClose =>
      have h1 := (cleanupStep_fields { s with oaConnOpen := false }).2.2.2.2.1
      simp only [step]
      rw [h1]; simpa using And.intro h0 h5
  | oaError =>
      have h1 := (cleanupStep_fields s).2.2.2.2.1
      simp only [step]
      rw [h1]; exact And.intro h0 h5
  | twClose =>
      have h1 := (cleanupStep_fields { s with twilioConnOpen := false }).2.2.2.2.1
      simp only [step]
      rw [h1]; simpa using And.intro h0 h5
  | twError =>
      have h1 := (cleanupStep_fields s).2.2.2.2.1
      simp only [step]
      rw [h1]; exact And.intro h0 h5

lemma run_inv_frames (cfg : Config) :
    ∀ (tr : List (Nat × Event)) (s : SessionState),
      0 ≤ s.framesSinceCommit → s.framesSinceCommit < 5 →
      0 ≤ (run cfg s tr).1.framesSinceCommit ∧
      (run cfg s tr).1.framesSinceCommit < 5 := by
  intro tr
  induction tr with
  | nil => intro s h0 h5; simpa [run] using And.intro h0 h5
  | cons te rest ih =>
      intro s h0 h5
      obtain ⟨t, e⟩ := te
      by_cases hd : delivers s e = true
      · have h1 := step_inv_frames cfg t s e h0 h5
        simpa [run_cons, hd] using ih (step cfg t s e).1 h1.1 h1.2
      · simpa [run_cons, hd] using ih s h0 h5

/-- In every reachable session state the frame counter stays in [0, 5). -/
lemma frames_in_range (cfg : Config) (ts0 : Nat) (tr : List (Nat × Event)) :
    0 ≤ (stateAfter cfg ts0 tr).framesSinceCommit ∧
    (stateAfter cfg ts0 tr).framesSinceCommit < 5 := by
  exact run_inv_frames cfg tr (initState ts0) (by simp [initState]) (by simp [initState])

/-- Media frames processed while the agent is not speaking trigger no
cancel, and the agent stays not speaking. -/
lemma media_run_nospeak (cfg : Config) :
    ∀ (ps : List String) (s : SessionState), s.speaking = false →
      countCancels (run cfg s (mediaTrace ps)).2 = 0 ∧
      (run cfg s (mediaTrace ps)).1.speaking = false := by
  intro ps
  induction ps with
  | nil => intro s hsp; simp [mediaTrace, run, countCancels, hsp]
  | cons p rest ih =>
      intro s hsp
      by_cases hop : s.twilioConnOpen = true
      · by_cases hr : s.openaiReady = true
        · have h2 := ih { s with
             framesSinceCommit :=
               if s.framesSinceCommit + 1 ≥ 5 then 0 else s.framesSinceCommit + 1,
             speaking := if s.speaking then false else s.speaking }
          by_cases hc : 5 ≤ s.framesSinceCommit + 1 <;>
            simp_all [mediaTrace, run_cons, delivers, step_media,
                      countCancels_append, countCancels, ge_iff_le] <;>
            (try (split <;> simp [countCancels]))
        · have h2 := ih s hsp
          simp_all [mediaTrace, run_cons, delivers, step_media, countCancels]
      · have h2 := ih s hsp
        simp_all [mediaTrace, run_cons, delivers]

/-- Reference recursion for the frame-count commit policy: commits emitted
by `n` media frames starting from counter value `c`. -/
def commitsFrom : Nat → Nat → Nat
  | _, 0 => 0
  | c, n + 1 => if c + 1 ≥ 5 then commitsFrom 0 n + 1 else commitsFrom (c + 1) n

lemma commitsFrom_eq_div : ∀ (n c : Nat), c < 5 → commitsFrom c n = (c + n) / 5 := by
  intro n
  induction n with
  | zero => intro c h; simp [commitsFrom]; omega
  | succ n ih =>
      intro c h
      by_cases hc : 5 ≤ c + 1
      · simp [commitsFrom, ge_iff_le, hc, ih 0 (by omega)]; omega
      · simp [commitsFrom, ge_iff_le, hc, ih (c + 1) (by omega)]; omega

/-- Commit counting along a pure media run with the upstream ready. -/
lemma media_run_commits (cfg : Config) :
    ∀ (ps : List String) (s : SessionState) (c : Nat),
      s.openaiReady = true → s.twilioConnOpen = true →
      s.framesSinceCommit = (c : Int) →
      countCommits (run cfg s (mediaTrace ps)).2 = commitsFrom c ps.length := by
  intro ps
  induction ps with
  | nil => intro s c hr hop hfc; simp [mediaTrace, run, countCommits, commitsFrom]
  | cons p rest ih =>
      intro s c hr hop hfc
      by_cases hcm : 5 ≤ c + 1
      · have hI : (5 : Int) ≤ (c : Int) + 1 := by exact_mod_cast hcm
        have ih2 := ih
          { s with
              framesSinceCommit := 0,
              speaking := (if s.speaking then false else s.speaking) }
          0 (by simpa using hr) (by simpa using hop) (by simp)
        by_cases hsp : s.speaking = true <;>
          simp [mediaTrace, run_cons, delivers, hop, step_media, hr, hfc, hsp,
                countCommits_append, countCommits, ge_iff_le, commitsFrom,
                hI, hcm] at ih2 ⊢ <;>
          omega
      · have hI : ¬ (5 : Int) ≤ (c : Int) + 1 := by
          intro hcon
          exact hcm (by exact_mod_cast hcon)
        have ih2 := ih
          { s with
              framesSinceCommit := s.framesSinceCommit + 1,
              speaking := (if s.speaking then false else s.speaking) }
          (c + 1) (by simpa using hr) (by simpa using hop) (by simp [hfc])
        by_cases hsp : s.speaking = true <;>
          simp [mediaTrace, run_cons, delivers, hop, step_media, hr, hfc, hsp,
                countCommits_append, countCommits, ge_iff_le, commitsFrom,
                hI, hcm] at ih2 ⊢ <;>
          omega

lemma mediaTrace_cons (p : String) (ps : List String) :
    mediaTrace (p :: ps) = (0, Event.tw (TwEvent.media p)) :: mediaTrace ps := rfl

/-- Media frames processed before the upstream session is ready are fully
absorbed: they change nothing and emit nothing, so the run of any
continuation is unaffected. -/
lemma media_run_not_ready (cfg : Config) :
    ∀ (ps : List String) (s : SessionState) (tr : List (Nat × Event)),
      s.openaiReady = false →
      run cfg s (mediaTrace ps ++ tr) = run cfg s tr := by
  intro ps
  induction ps with
  | nil => intro s tr h; simp [mediaTrace]
  | cons p rest ih =>
      intro s tr h
      have hstep : step cfg 0 s (Event.tw (TwEvent.media p)) = (s, []) := by
        simp [step_media, h]
      by_cases hop : s.twilioConnOpen = true
      · simp [mediaTrace_cons, List.cons_append, run_cons, delivers, hop,
              hstep, ih s tr h]
      · simp [mediaTrace_cons, List.cons_append, run_cons, delivers, hop,
              ih s tr h]

/-- C1: whenever a media event is processed in a reachable session state in
which the agent is speaking, the handler sends exactly one cancel control
message upstream and `speaking` is false when it returns; across a run of
consecutive media events from such a state exactly one cancel is sent in
total, because only the first frame finds `speaking` set. -/
theorem claim_C1_barge_in (cfg : Config) (ts0 : Nat) (tr : List (Nat × Event))
    (p : String) (ps : List String)
    (hs : (stateAfter cfg ts0 tr).speaking = true)
    (ht : (stateAfter cfg ts0 tr).twilioConnOpen = true) :
    countCancels (step cfg 0 (stateAfter cfg ts0 tr) (Event.tw (TwEvent.media p))).2 = 1 ∧
    (step cfg 0 (stateAfter cfg ts0 tr) (Event.tw (TwEvent.media p))).1.speaking = false ∧
    countCancels (run cfg (stateAfter cfg ts0 tr) (mediaTrace (p :: ps))).2 = 1 := by
  have hr : (stateAfter cfg ts0 tr).openaiReady = true := speaking_imp_ready cfg ts0 tr hs
  have hsp2 : (step cfg 0 (stateAfter cfg ts0 tr) (Event.tw (TwEvent.media p))).1.speaking
      = false := by
    simp [step_media, hr, hs]
  have hcancel1 : countCancels
      (step cfg 0 (stateAfter cfg ts0 tr) (Event.tw (TwEvent.media p))).2 = 1 := by
    by_cases hc : 5 ≤ (stateAfter cfg ts0 tr).framesSinceCommit + 1 <;>
      simp [step_media, hr, hs, hc, ge_iff_le, countCancels_append, countCancels]
  refine ⟨hcancel1, hsp2, ?_⟩
  have hdel : delivers (stateAfter cfg ts0 tr) (Event.tw (TwEvent.media p)) = true := by
    simp [delivers, ht]
  have h0 := (media_run_nospeak cfg ps
    (step cfg 0 (stateAfter cfg ts0 tr) (Event.tw (TwEvent.media p))).1 hsp2).1
  simp [mediaTrace_cons, run_cons, hdel, countCancels_append, hcancel1, h0]

/-- C1 witness: after the upstream session opens and one audio delta flows,
the agent is speaking; one media frame then triggers exactly one cancel and
a run of two frames still sends exactly one cancel. -/
theorem claim_C1_witness :
    (stateAfter cfgW 0 trW).speaking = true ∧
    (stateAfter cfgW 0 trW).twilioConnOpen = true ∧
    (countCancels (step cfgW 0 (stateAfter cfgW 0 trW)
        (Event.tw (TwEvent.media "cA=="))).2 = 1 ∧
     (step cfgW 0 (stateAfter cfgW 0 trW)
        (Event.tw (TwEvent.media "cA=="))).1.speaking = false ∧
     countCancels (run cfgW (stateAfter cfgW 0 trW)
        (mediaTrace ("cA==" :: ["cQ=="]))).2 = 1) :=
  ⟨by decide, by decide,
   claim_C1_barge_in cfgW 0 trW "cA==" ["cQ=="] (by decide) (by decide)⟩

/-- C2: a media event processed while `openaiReady` is false is a complete
no-op (no state change, no messages), so any block of media frames arriving
before readiness is dropped outright: the run of the remaining trace is as
if those frames never existed, and in particular no append and no commit is
ever sent for them. -/
theorem claim_C2_pre_ready_drop (cfg : Config) (ts0 : Nat) (ps : List String)
    (tr : List (Nat × Event)) :
    (∀ (now : Nat) (s : SessionState) (p : String), s.openaiReady = false →
        step cfg now s (Event.tw (TwEvent.media p)) = (s, [])) ∧
    run cfg (initState ts0) (mediaTrace ps ++ tr) = run cfg (initState ts0) tr ∧
    appendsOf (run cfg (initState ts0) (mediaTrace ps)).2 = [] ∧
    countCommits (run cfg (initState ts0) (mediaTrace ps)).2 = 0 := by
  have hnr : (initState ts0).openaiReady = false := rfl
  have habs := media_run_not_ready cfg ps (initState ts0) [] hnr
  rw [List.append_nil] at habs
  refine ⟨?_, media_run_not_ready cfg ps (initState ts0) tr hnr, ?_, ?_⟩
  · intro now s p h
    simp [step_media, h]
  · simp [habs, run, appendsOf]
  · simp [habs, run, countCommits]

/-- C2 witness: a fresh session is not ready, and a media frame processed
there changes nothing and sends nothing. -/
theorem claim_C2_witness :
    (initState 0).openaiReady = false ∧
    step cfgW 3 (initState 0) (Event.tw (TwEvent.media "eA==")) = (initState 0, []) :=
  ⟨rfl, (claim_C2_pre_ready_drop cfgW 0 ["eA=="] []).1 3 (initState 0) "eA==" rfl⟩

/-- C3: from a reachable ready state with the counter at zero, N media
frames produce exactly N / 5 commits from frame counting alone; the frame
counter is never negative in any reachable state; and any media step that
emits a commit leaves the counter at zero in that same step. -/
theorem claim_C3_commit_threshold (cfg : Config) (ts0 : Nat)
    (tr : List (Nat × Event)) (ps : List String)
    (h1 : (stateAfter cfg ts0 tr).openaiReady = true)
    (h2 : (stateAfter cfg ts0 tr).twilioConnOpen = true)
    (h3 : (stateAfter cfg ts0 tr).framesSinceCommit = 0) :
    countCommits (run cfg (stateAfter cfg ts0 tr) (mediaTrace ps)).2 = ps.length / 5 ∧
    (∀ tr2 : List (Nat × Event), 0 ≤ (stateAfter cfg ts0 tr2).framesSinceCommit) ∧
    (∀ (now : Nat) (s : SessionState) (p : String),
        1 ≤ countCommits (step cfg now s (Event.tw (TwEvent.media p))).2 →
        (step cfg now s (Event.tw (TwEvent.media p))).1.framesSinceCommit = 0) := by
  refine ⟨?_, fun tr2 => (frames_in_range cfg ts0 tr2).1, ?_⟩
  · have hrel := media_run_commits cfg ps (stateAfter cfg ts0 tr) 0 h1 h2
      (by simpa using h3)
    rw [hrel, commitsFrom_eq_div ps.length 0 (by omega)]
    simp
  · intro now s p hcount
    by_cases hr : s.openaiReady = true
    · by_cases hc : 5 ≤ s.framesSinceCommit + 1
      · simp [step_media, hr, hc, ge_iff_le]
      · exfalso
        by_cases hsp : s.speaking = true <;>
          simp [step_media, hr, hc, hsp, ge_iff_le, countCommits_append,
                countCommits] at hcount
    · exfalso
      simp [step_media, hr, countCommits] at hcount

/-- C3 witness: in the concrete ready state, six frames yield exactly one
commit (six divided by five), the counter is non-negative, and the
commit-emitting step resets it. -/
theorem claim_C3_witness :
    (stateAfter cfgW 0 trW).openaiReady = true ∧
    (stateAfter cfgW 0 trW).twilioConnOpen = true ∧
    (stateAfter cfgW 0 trW).framesSinceCommit = 0 ∧
    countCommits (run cfgW (stateAfter cfgW 0 trW)
      (mediaTrace ["YQ==", "Yg==", "Yw==", "ZA==", "ZQ==", "Zg=="])).2 =
      (["YQ==", "Yg==", "Yw==", "ZA==", "ZQ==", "Zg=="] : List String).length / 5 :=
  ⟨by decide, by decide, by decide,
   (claim_C3_commit_threshold cfgW 0 trW ["YQ==", "Yg==", "Yw==", "ZA==", "ZQ==", "Zg=="]
      (by decide) (by decide) (by decide)).1⟩

/-- C4 counterexample: in the single try/catch iteration of cleanup
(part_001 lines 454 to 460), a failure while closing the upstream socket
prevents any attempt to close the telephony socket, which stays open; so
the release operations of that teardown are not individually
fault-isolated, refuting the claim as stated for that cited procedure. -/
theorem claim_C4_counterexample :
    (cleanupSingleTry
        { timerActive := true, oaIsOpen := true, twIsOpen := true,
          oaCloseThrows := true, twCloseThrows := false }).2.oaCloseAttempted = true ∧
    (cleanupSingleTry
        { timerActive := true, oaIsOpen := true, twIsOpen := true,
          oaCloseThrows := true, twCloseThrows := false }).2.twCloseAttempted = false ∧
    (cleanupSingleTry
        { timerActive := true, oaIsOpen := true, twIsOpen := true,
          oaCloseThrows := true, twCloseThrows := false }).1.twIsOpen = true := by
  decide

/-- C4 amended: both cleanup variants never let an exception escape; the
final iteration (per-operation try/catch) attempts every applicable close
regardless of faults, so its releases are individually fault-isolated; and
in a fault-free environment both variants are idempotent: the first call
closes both sockets (and releases the timer in the variant that holds one)
and a second call attempts nothing, produces no error, and changes
nothing. -/
theorem claim_C4_cleanup_amended (c d : Conns)
    (h1 : c.oaCloseThrows = false) (h2 : c.twCloseThrows = false) :
    ((cleanup d).2.escaped = false ∧ (cleanupSingleTry d).2.escaped = false) ∧
    ((cleanup d).2.oaCloseAttempted = d.oaIsOpen ∧
     (cleanup d).2.twCloseAttempted = d.twIsOpen) ∧
    ((cleanup c).1.oaIsOpen = false ∧ (cleanup c).1.twIsOpen = false ∧
     (cleanup (cleanup c).1).2.oaCloseAttempted = false ∧
     (cleanup (cleanup c).1).2.twCloseAttempted = false ∧
     (cleanup (cleanup c).1).2.escaped = false ∧
     (cleanup (cleanup c).1).1 = (cleanup c).1) ∧
    ((cleanupSingleTry c).1.timerActive = false ∧
     (cleanupSingleTry c).1.oaIsOpen = false ∧
     (cleanupSingleTry c).1.twIsOpen = false ∧
     (cleanupSingleTry (cleanupSingleTry c).1).2.oaCloseAttempted = false ∧
     (cleanupSingleTry (cleanupSingleTry c).1).2.twCloseAttempted = false ∧
     (cleanupSingleTry (cleanupSingleTry c).1).2.escaped = false ∧
     (cleanupSingleTry (cleanupSingleTry c).1).1 = (cleanupSingleTry c).1) := by
  revert h1 h2
  revert c d
  decide

/-- C4 witness: the amended statement instantiated at a fault-free session
holding both sockets and the timer, and at an environment in which closing
the upstream socket throws. -/
theorem claim_C4_witness :
    ((⟨true, true, true, false, false⟩ : Conns).oaCloseThrows = false ∧
     (⟨true, true, true, false, false⟩ : Conns).twCloseThrows = false) ∧
    (cleanup (⟨false, true, true, true, false⟩ : Conns)).2.escaped = false ∧
    (cleanup (⟨false, true, true, true, false⟩ : Conns)).2.twCloseAttempted =
      (⟨false, true, true, true, false⟩ : Conns).twIsOpen ∧
    (cleanupSingleTry (cleanupSingleTry
        (⟨true, true, true, false, false⟩ : Conns)).1).2.escaped = false :=
  ⟨⟨by decide, by decide⟩,
   (claim_C4_cleanup_amended ⟨true, true, true, false, false⟩
      ⟨false, true, true, true, false⟩ (by decide) (by decide)).1.1,
   (claim_C4_cleanup_amended ⟨true, true, true, false, false⟩
      ⟨false, true, true, true, false⟩ (by decide) (by decide)).2.1.2,
   (claim_C4_cleanup_amended ⟨true, true, true, false, false⟩
      ⟨false, true, true, true, false⟩ (by decide) (by decide)).2.2.2.2.2.2.2.1⟩

/-- C5: evaluating the part_000 handlers at the failing input. After the
telephony close (or error) event is handled, the `twilioClosed` flag is
still false, because no handler in part_000 ever assigns it; consequently
`twilioSendMedia` is not a no-op afterwards: it still attempts the send.
This contradicts the claim that the flag is true once the connection has
closed and that every later send-media invocation transmits nothing. -/
theorem claim_C5_downstream_flag_bug :
    (stateAfter cfgW 0 [(0, Event.twClose)]).twilioClosed = false ∧
    twilioSendMedia (stateAfter cfgW 0 [(0, Event.twClose)]) "cGF5" =
      [Action.twilioSend "cGF5"] ∧
    (stateAfter cfgW 0 [(0, Event.twError)]).twilioClosed = false ∧
    twilioSendMedia (stateAfter cfgW 0 [(0, Event.twError)]) "cGF5" =
      [Action.twilioSend "cGF5"] := by
  decide

/-- C7: the relay is a pure carrier. A media payload forwarded while the
upstream is ready appears in the append control message byte-identical to
the inbound event payload, and an upstream audio delta payload is
transmitted downstream byte-identical; no transformation is applied. -/
theorem claim_C7_pure_carrier (cfg : Config) (now : Nat) (s : SessionState)
    (p a : String) (h1 : s.openaiReady = true) (h2 : ¬ a = "")
    (h3 : s.twilioClosed = false) :
    appendsOf (step cfg now s (Event.tw (TwEvent.media p))).2 = [p] ∧
    (step cfg now s (Event.oaMsg (OAEvent.audioDelta a))).2 =
      [Action.twilioSend a] := by
  constructor
  · by_cases hc : 5 ≤ s.framesSinceCommit + 1 <;>
      by_cases hsp : s.speaking = true <;>
      simp [step_media, h1, hc, hsp, ge_iff_le, appendsOf_append, appendsOf]
  · simp [step, stepOa, h2, twilioSendMedia, h3]

/-- C7 witness: the carrier equalities at concrete payloads in the concrete
ready state. -/
theorem claim_C7_witness :
    ((stateAfter cfgW 0 trW).openaiReady = true ∧ ¬ "b2s=" = "" ∧
     (stateAfter cfgW 0 trW).twilioClosed = false) ∧
    appendsOf (step cfgW 0 (stateAfter cfgW 0 trW)
      (Event.tw (TwEvent.media "cGF5"))).2 = ["cGF5"] ∧
    (step cfgW 0 (stateAfter cfgW 0 trW)
      (Event.oaMsg (OAEvent.audioDelta "b2s="))).2 = [Action.twilioSend "b2s="] :=
  ⟨⟨by decide, by decide, by decide⟩,
   (claim_C7_pure_carrier cfgW 0 (stateAfter cfgW 0 trW) "cGF5" "b2s="
      (by decide) (by decide) (by decide)).1,
   (claim_C7_pure_carrier cfgW 0 (stateAfter cfgW 0 trW) "cGF5" "b2s="
      (by decide) (by decide) (by decide)).2⟩

/-- C8: a malformed (undecodable) inbound message on either connection is
handled by the catch block before any state mutation or send: the handler
returns the state unchanged with no actions, and dropping the event from
any trace leaves the whole run (final state and every emitted action)
unchanged, so the session keeps processing subsequent events as if the
malformed message had never arrived. -/
theorem claim_C8_malformed_noop (cfg : Config) (now t : Nat) (s : SessionState)
    (tr1 tr2 : List (Nat × Event)) :
    step cfg now s (Event.tw TwEvent.malformed) = (s, []) ∧
    step cfg now s (Event.oaMsg OAEvent.malformed) = (s, []) ∧
    run cfg s (tr1 ++ (t, Event.tw TwEvent.malformed) :: tr2) =
      run cfg s (tr1 ++ tr2) ∧
    run cfg s (tr1 ++ (t, Event.oaMsg OAEvent.malformed) :: tr2) =
      run cfg s (tr1 ++ tr2) := by
  have hskipT : ∀ s2 : SessionState,
      run cfg s2 ((t, Event.tw TwEvent.malformed) :: tr2) = run cfg s2 tr2 := by
    intro s2
    by_cases hd : delivers s2 (Event.tw TwEvent.malformed) = true <;>
      simp [run_cons, hd, step, stepTw]
  have hskipO : ∀ s2 : SessionState,
      run cfg s2 ((t, Event.oaMsg OAEvent.malformed) :: tr2) = run cfg s2 tr2 := by
    intro s2
    by_cases hd : delivers s2 (Event.oaMsg OAEvent.malformed) = true <;>
      simp [run_cons, hd, step, stepOa]
  refine ⟨rfl, rfl, ?_, ?_⟩
  · rw [run_append, run_append cfg tr1 tr2, hskipT]
  · rw [run_append, run_append cfg tr1 tr2, hskipO]

/-- C9: the upgrade handler terminates the transport of every request whose
URL does not start with "/stream" and creates no session for it, and hands
every request whose URL does start with "/stream" to the WS server, which
instantiates exactly one Call Session for the accepted connection. -/
theorem claim_C9_upgrade_path (url : String) :
    (strStartsWith url "/stream" = false →
       upgradeHandler url = UpgradeResult.destroySocket ∧ sessionsCreated url = 0) ∧
    (strStartsWith url "/stream" = true →
       upgradeHandler url = UpgradeResult.handleUpgrade ∧ sessionsCreated url = 1) := by
  constructor <;> intro h <;> simp [upgradeHandler, sessionsCreated, h]

/-- C9 witness: a non-matching URL is destroyed with no session; a matching
URL is upgraded with exactly one session. -/
theorem claim_C9_witness :
    (strStartsWith "/other" "/stream" = false ∧
     upgradeHandler "/other" = UpgradeResult.destroySocket ∧
     sessionsCreated "/other" = 0) ∧
    (strStartsWith "/stream?leadId=7" "/stream" = true ∧
     upgradeHandler "/stream?leadId=7" = UpgradeResult.handleUpgrade ∧
     sessionsCreated "/stream?leadId=7" = 1) :=
  ⟨⟨by decide, (claim_C9_upgrade_path "/other").1 (by decide)⟩,
   ⟨by decide, (claim_C9_upgrade_path "/stream?leadId=7").2 (by decide)⟩⟩

/-- Outcome emission facts about a single handler invocation: at most one
report is ever emitted per event; an event that emits a report leaves the
telephony socket closed (only `stop` posts, and it closes the socket); once
the telephony socket is closed no handler reopens it; and an event
deliverable while the telephony socket is closed emits no report. -/
lemma step_outcome_facts (cfg : Config) (t : Nat) (s : SessionState) (e : Event) :
    (outcomesOf (step cfg t s e).2).length ≤ 1 ∧
    (outcomesOf (step cfg t s e).2 ≠ [] → (step cfg t s e).1.twilioConnOpen = false) ∧
    (s.twilioConnOpen = false → (step cfg t s e).1.twilioConnOpen = false) ∧
    (s.twilioConnOpen = false → delivers s e = true →
      outcomesOf (step cfg t s e).2 = []) := by
  cases e with
  | tw te =>
      cases te with
      | start sid => simp [step, stepTw, outcomesOf, delivers]
      | media p =>
          by_cases hr : s.openaiReady = true
          · by_cases hc : 5 ≤ s.framesSinceCommit + 1 <;>
              by_cases hsp : s.speaking = true <;>
              simp [step_media, hr, hc, hsp, ge_iff_le, outcomesOf_append,
                    outcomesOf, delivers]
          · simp [step_media, hr, outcomesOf, delivers]
      | stop =>
          by_cases hn : cfg.n8nConfigured = true <;>
            simp [step, stepTw, hn, outcomesOf_append, outcomesOf, delivers]
      | other => simp [step, stepTw, outcomesOf, delivers]
      | malformed => simp [step, stepTw, outcomesOf, delivers]
  | oaMsg oe =>
      have h1 := stepOa_fields s oe
      refine ⟨?_, ?_, ?_, ?_⟩
      · rw [show (step cfg t s (Event.oaMsg oe)).2 = (stepOa s oe).2 from rfl, h1.2.2.2.2.2.2.2.1]
        simp
      · intro hne
        exact absurd h1.2.2.2.2.2.2.2.1 hne
      · intro hcl
        rw [show (step cfg t s (Event.oaMsg oe)).1 = (stepOa s oe).1 from rfl, h1.2.1]
        exact hcl
      · intro _ _
        exact h1.2.2.2.2.2.2.2.1
  | oaOpen => simp [step, outcomesOf]
  | oaClose =>
      have h1 := cleanupStep_fields { s with oaConnOpen := false }
      refine ⟨?_, ?_, ?_, ?_⟩ <;>
        simp [step, h1.2.2.2.2.2.2.2.1, h1.2.2.2.2.2.2.2.2.1]
  | oaError =>
      have h1 := cleanupStep_fields s
      refine ⟨?_, ?_, ?_, ?_⟩ <;>
        simp [step, h1.2.2.2.2.2.2.2.1, h1.2.2.2.2.2.2.2.2.1]
  | twClose =>
      have h1 := cleanupStep_fields { s with twilioConnOpen := false }
      refine ⟨?_, ?_, ?_, ?_⟩ <;>
        simp [step, h1.2.2.2.2.2.2.2.1, h1.2.2.2.2.2.2.2.2.1]
  | twError =>
      have h1 := cleanupStep_fields s
      refine ⟨?_, ?_, ?_, ?_⟩ <;>
        simp [step, h1.2.2.2.2.2.2.2.1, h1.2.2.2.2.2.2.2.2.1]

/-- Along any serialized trace, a session emits at most one end-of-call
report, and none at all once the telephony socket is closed: the only
posting event is `stop`, it requires the socket to still be open, and its
handler closes the socket, which nothing reopens. -/
lemma run_outcomes_le_one (cfg : Config) :
    ∀ (tr : List (Nat × Event)) (s : SessionState),
      (s.twilioConnOpen = false → outcomesOf (run cfg s tr).2 = []) ∧
      (outcomesOf (run cfg s tr).2).length ≤ 1 := by
  intro tr
  induction tr with
  | nil => intro s; simp [run, outcomesOf]
  | cons te rest ih =>
      intro s
      obtain ⟨t, e⟩ := te
      by_cases hd : delivers s e = true
      · have F := step_outcome_facts cfg t s e
        constructor
        · intro hcl
          have hstep0 : outcomesOf (step cfg t s e).2 = [] := F.2.2.2 hcl hd
          have hcl2 : (step cfg t s e).1.twilioConnOpen = false := F.2.2.1 hcl
          simp [run_cons, hd, outcomesOf_append, hstep0,
                (ih (step cfg t s e).1).1 hcl2]
        · by_cases hemp : outcomesOf (step cfg t s e).2 = []
          · simp [run_cons, hd, outcomesOf_append, hemp,
                  (ih (step cfg t s e).1).2]
          · have hcl2 : (step cfg t s e).1.twilioConnOpen = false := F.2.1 hemp
            have hrest : outcomesOf (run cfg (step cfg t s e).1 rest).2 = [] :=
              (ih (step cfg t s e).1).1 hcl2
            simp [run_cons, hd, outcomesOf_append, hrest, F.1]
      · constructor
        · intro hcl
          simp [run_cons, hd, (ih s).1 hcl]
        · simp [run_cons, hd, (ih s).2]

/-- C6: for a session trace of a start event carrying a call id, any number
of media frames, and one stop event, the end-of-call report is emitted
exactly once, with status completed, the recorded call id, the session
correlation token, and an end timestamp no earlier than the start
timestamp; moreover no trace whatsoever makes a session emit the report
twice, and an upstream transport error closes the telephony socket as part
of teardown without emitting any report. -/
theorem claim_C6_outcome_once (cfg : Config) (ts0 t0 tStop : Nat) (sid : String)
    (ps : List String) (tr2 : List (Nat × Event)) (now : Nat) (s : SessionState)
    (hC : cfg.n8nConfigured = true) (hsid : ¬ sid = "") (hT : ts0 ≤ tStop)
    (hOpen : s.twilioConnOpen = true) :
    (outcomesOf (run cfg (initState ts0)
        ((t0, Event.tw (TwEvent.start (some sid))) ::
          (mediaTrace ps ++ [(tStop, Event.tw TwEvent.stop)]))).2 =
      [{ leadId := cfg.leadId, callSid := some sid, status := "completed",
         startedAt := ts0, endedAt := tStop, summary := "", transcript := "" }] ∧
     ts0 ≤ tStop) ∧
    (outcomesOf (run cfg (initState ts0) tr2).2).length ≤ 1 ∧
    (Action.closeTwilio ∈ (step cfg now s Event.oaError).2 ∧
     outcomesOf (step cfg now s Event.oaError).2 = []) := by
  refine ⟨⟨?_, hT⟩, (run_outcomes_le_one cfg tr2 (initState ts0)).2, ?_, ?_⟩
  · obtain ⟨m1, m2, m3, m4, m5, m6, m7, m8, m9⟩ :=
      media_run_fields cfg ps
        { openaiReady := false, speaking := false, twilioClosed := false,
          callSid := some sid, callStartTs := ts0, transcript := "", summary := "",
          framesSinceCommit := 0, oaConnOpen := false, twilioConnOpen := true }
    simp [run_cons, run_append, outcomesOf_append, m9, run, outcomesOf,
          step, stepTw, hC, m1, m2, m3, m4, m5, initState, jsOrNull, hsid,
          delivers]
  · by_cases ho : s.oaConnOpen = true <;>
      simp [step, cleanupStep, hOpen, ho]
  · by_cases ho : s.oaConnOpen = true <;>
      simp [step, cleanupStep, hOpen, ho, outcomesOf_append, outcomesOf]

/-- C6 witness: a concrete start, media, stop trace emits exactly the one
completed report with call id CA123 and end time after start time; the
at-most-once bound and the error-teardown facts instantiated concretely. -/
theorem claim_C6_witness :
    (cfgW.n8nConfigured = true ∧ ¬ "CA123" = "" ∧ (0 : Nat) ≤ 9 ∧
     (initState 0).twilioConnOpen = true) ∧
    outcomesOf (run cfgW (initState 0)
        ((1, Event.tw (TwEvent.start (some "CA123"))) ::
          (mediaTrace ["YQ=="] ++ [(9, Event.tw TwEvent.stop)]))).2 =
      [{ leadId := cfgW.leadId, callSid := some "CA123", status := "completed",
         startedAt := 0, endedAt := 9, summary := "", transcript := "" }] ∧
    (outcomesOf (run cfgW (initState 0) trW).2).length ≤ 1 ∧
    Action.closeTwilio ∈ (step cfgW 0 (initState 0) Event.oaError).2 :=
  ⟨⟨rfl, by decide, by decide, rfl⟩,
   (claim_C6_outcome_once cfgW 0 1 9 "CA123" ["YQ=="] trW 0 (initState 0)
      rfl (by decide) (by decide) rfl).1.1,
   (claim_C6_outcome_once cfgW 0 1 9 "CA123" ["YQ=="] trW 0 (initState 0)
      rfl (by decide) (by decide) rfl).2.1,
   (claim_C6_outcome_once cfgW 0 1 9 "CA123" ["YQ=="] trW 0 (initState 0)
      rfl (by decide) (by decide) rfl).2.2.1⟩

lemma jsOrNull_eq_some (sid0 : Option String) (sid : String)
    (h : jsOrNull sid0 = some sid) : sid0 = some sid ∧ ¬ sid = "" := by
  cases sid0 with
  | none => simp [jsOrNull] at h
  | some v =>
      by_cases hv : v = ""
      · simp [jsOrNull, hv] at h
      · simp [jsOrNull, hv] at h
        subst h
        exact ⟨rfl, hv⟩

/-- The only handler that writes `callSid` is the `start` case, and it
writes the JS coalescing of the event field. -/
lemma step_callSid (cfg : Config) (t : Nat) (s : SessionState) (e : Event) :
    (step cfg t s e).1.callSid = s.callSid ∨
    ∃ sid0, e = Event.tw (TwEvent.start sid0) ∧
      (step cfg t s e).1.callSid = jsOrNull sid0 := by
  cases e with
  | tw te =>
      cases te with
      | start sid0 => exact Or.inr ⟨sid0, rfl, by simp [step, stepTw]⟩
      | media p =>
          by_cases hr : s.openaiReady = true <;> simp [step_media, hr]
      | stop => simp [step, stepTw]
      | other => simp [step, stepTw]
      | malformed => simp [step, stepTw]
  | oaMsg oe => exact Or.inl (stepOa_fields s oe).2.2.2.1
  | oaOpen => simp [step]
  | oaClose => exact Or.inl (cleanupStep_fields { s with oaConnOpen := false }).2.2.1
  | oaError => exact Or.inl (cleanupStep_fields s).2.2.1
  | twClose => exact Or.inl (cleanupStep_fields { s with twilioConnOpen := false }).2.2.1
  | twError => exact Or.inl (cleanupStep_fields s).2.2.1

/-- If a run ends with a non-null recorded call id, either the run started
with it or some start event in the trace supplied exactly that id (and it
was not the empty string, which the JS coalescing maps to null). -/
lemma run_callSid_origin (cfg : Config) :
    ∀ (tr : List (Nat × Event)) (s : SessionState) (sid : String),
      (run cfg s tr).1.callSid = some sid →
      s.callSid = some sid ∨
      ∃ t, ((t, Event.tw (TwEvent.start (some sid))) ∈ tr ∧ ¬ sid = "") := by
  intro tr
  induction tr with
  | nil => intro s sid h; exact Or.inl (by simpa [run] using h)
  | cons te rest ih =>
      intro s sid h
      obtain ⟨t, e⟩ := te
      by_cases hd : delivers s e = true
      · rw [run_cons, if_pos hd] at h
        rcases ih (step cfg t s e).1 sid h with h1 | ⟨t2, hmem, hne⟩
        · rcases step_callSid cfg t s e with h2 | ⟨sid0, he, h2⟩
          · exact Or.inl (h2 ▸ h1)
          · rw [h2] at h1
            obtain ⟨hs0, hne⟩ := jsOrNull_eq_some sid0 sid h1
            subst hs0
            subst he
            exact Or.inr ⟨t, List.mem_cons_self _ _, hne⟩
        · exact Or.inr ⟨t2, List.mem_cons_of_mem _ hmem, hne⟩
      · rw [run_cons, if_neg hd] at h
        rcases ih s sid h with h1 | ⟨t2, hmem, hne⟩
        · exact Or.inl h1
        · exact Or.inr ⟨t2, List.mem_cons_of_mem _ hmem, hne⟩

/-- C10: the recorded call id is null unless a prior non-empty start event
supplied one; the stop handler always posts the report built from the
current state when the notifier is configured; and in particular a stop
processed by a session that never saw a start event still emits the report,
with a null call id. -/
theorem claim_C10_null_callSid (cfg : Config) (ts0 : Nat)
    (tr : List (Nat × Event)) (sid : String) (now t1 : Nat) (s : SessionState)
    (hC : cfg.n8nConfigured = true)
    (hS : (stateAfter cfg ts0 tr).callSid = some sid) :
    (∃ t, ((t, Event.tw (TwEvent.start (some sid))) ∈ tr ∧ ¬ sid = "")) ∧
    outcomesOf (step cfg now s (Event.tw TwEvent.stop)).2 =
      [{ leadId := cfg.leadId, callSid := s.callSid, status := "completed",
         startedAt := s.callStartTs, endedAt := now, summary := s.summary,
         transcript := s.transcript }] ∧
    outcomesOf (run cfg (initState ts0) [(t1, Event.tw TwEvent.stop)]).2 =
      [{ leadId := cfg.leadId, callSid := none, status := "completed",
         startedAt := ts0, endedAt := t1, summary := "", transcript := "" }] := by
  refine ⟨?_, ?_, ?_⟩
  · rcases run_callSid_origin cfg tr (initState ts0) sid hS with h1 | h1
    · exact absurd h1 (by simp [initState])
    · exact h1
  · simp [step, stepTw, hC, outcomesOf_append, outcomesOf]
  · simp [run_cons, run, delivers, initState, step, stepTw, hC,
          outcomesOf_append, outcomesOf]

/-- C10 witness: a trace holding one start with id CA123 makes the recorded
id CA123, so the start event is found in it; and a bare stop with no prior
start posts the report with a null call id. -/
theorem claim_C10_witness :
    (cfgW.n8nConfigured = true ∧
     (stateAfter cfgW 0
        [(0, Event.tw (TwEvent.start (some "CA123")))]).callSid = some "CA123") ∧
    (∃ t, ((t, Event.tw (TwEvent.start (some "CA123"))) ∈
        [(0, Event.tw (TwEvent.start (some "CA123")))] ∧ ¬ "CA123" = "")) ∧
    outcomesOf (run cfgW (initState 0) [(5, Event.tw TwEvent.stop)]).2 =
      [{ leadId := cfgW.leadId, callSid := none, status := "completed",
         startedAt := 0, endedAt := 5, summary := "", transcript := "" }] :=
  ⟨⟨rfl, by decide⟩,
   (claim_C10_null_callSid cfgW 0 [(0, Event.tw (TwEvent.start (some "CA123")))]
      "CA123" 5 5 (initState 0) rfl (by decide)).1,
   (claim_C10_null_callSid cfgW 0 [(0, Event.tw (TwEvent.start (some "CA123")))]
      "CA123" 5 5 (initState 0) rfl (by decide)).2.2⟩

end ValaQ
